import Mathlib

/-!
Shallow embedding of the sprite-animation demo (`src/main.rs`).

Modelling conventions:
* Rust `u32` values are `Nat`s; arithmetic that can wrap in release mode is
  taken modulo `U32 = 2^32`.  Rust integer division by zero panics in every
  profile, so operations performing a division return `Option` and yield
  `none` on a zero divisor.
* Rust `f32` values (positions, speeds, frame widths, rectangle fields) are
  modelled exactly as rationals `ℚ`.
* `HashMap<AnimationType, SpriteAnimation>` is modelled as the function
  `AnimationType → Option SpriteAnimation`; `insert` is a pointwise update.
* `expect`/panic on a missing key is modelled by `Option`: `none` is the
  process-terminating panic.
* Drawing is modelled by the data handed to `draw_texture_pro`: the source
  rectangle, destination rectangle, origin and rotation.
-/

namespace Game

/-- Modulus of Rust `u32` arithmetic. -/
def U32 : Nat := 4294967296

/-- Raylib texture handle: only its pixel dimensions (`i32` in raylib)
are relevant to the program. -/
structure Texture2D where
  width : Int
  height : Int
  deriving DecidableEq, Repr

/-- Raylib `Vector2` with `f32` fields, modelled over `ℚ`. -/
structure Vector2 where
  x : ℚ
  y : ℚ
  deriving DecidableEq, Repr

/-- Raylib `Rectangle` with `f32` fields, modelled over `ℚ`. -/
structure Rectangle where
  x : ℚ
  y : ℚ
  width : ℚ
  height : ℚ
  deriving DecidableEq, Repr

/-- `Vector2::zero()`. -/
def Vector2.zero : Vector2 := ⟨0, 0⟩

/-- The `SpriteAnimation` struct of `src/main.rs`. -/
structure SpriteAnimation where
  texture : Texture2D
  frame_width : ℚ
  num_frames : Nat
  current_frame : Nat
  frames_counter : Nat
  anim_speed : Nat
  deriving DecidableEq, Repr

namespace SpriteAnimation

/-- `SpriteAnimation::new(sprite, num_frames, speed)`:
`frame_width = sprite.width as f32 / num_frames as f32`, all counters zero. -/
def new (sprite : Texture2D) (num_frames : Nat) (speed : Nat) : SpriteAnimation :=
  { texture := sprite
    frame_width := (sprite.width : ℚ) / (num_frames : ℚ)
    num_frames := num_frames
    current_frame := 0
    frames_counter := 0
    anim_speed := speed }

/-- `SpriteAnimation::animate()`.  Increment `frames_counter`; once it reaches
`60 / anim_speed` reset it and advance `current_frame`, wrapping past
`num_frames - 1`.  The Rust division `60 / self.anim_speed` panics when
`anim_speed = 0`, hence the `Option`; the `u32` additions and the subtraction
`num_frames - 1` use wrapping (release-mode) semantics. -/
def animate (s : SpriteAnimation) : Option SpriteAnimation :=
  if s.anim_speed = 0 then
    none
  else
    let fc := (s.frames_counter + 1) % U32
    if fc ≥ 60 / s.anim_speed then
      let cf := (s.current_frame + 1) % U32
      let cf := if cf > (s.num_frames + U32 - 1) % U32 then 0 else cf
      some { s with frames_counter := 0, current_frame := cf }
    else
      some { s with frames_counter := fc }

/-- Iterate `animate` a number of times; `none` as soon as one call panics. -/
def animateN : Nat → SpriteAnimation → Option SpriteAnimation
  | 0, s => some s
  | n + 1, s =>
    match s.animate with
    | none => none
    | some s' => animateN n s'

/-- `SpriteAnimation::draw(pos, d)`: the arguments the method passes to
`draw_texture_pro` (source rectangle, destination rectangle, origin,
rotation). -/
def draw (s : SpriteAnimation) (pos : Vector2) :
    Rectangle × Rectangle × Vector2 × ℚ :=
  (⟨(s.current_frame : ℚ) * s.frame_width, 0, s.frame_width, (s.texture.height : ℚ)⟩,
   ⟨pos.x, pos.y, s.frame_width, (s.texture.height : ℚ)⟩,
   ⟨0, 0⟩,
   0)

end SpriteAnimation

/-- The `Direction` enum. -/
inductive Direction where
  | UP
  | DOWN
  | LEFT
  | RIGHT
  deriving DecidableEq, Repr

/-- The `AnimationType` enum: `Idle(Direction)` or `Run(Direction)`. -/
inductive AnimationType where
  | Idle (d : Direction)
  | Run (d : Direction)
  deriving DecidableEq, Repr

/-- The `Player` struct of `src/main.rs`.  The `HashMap` of animations is a
function from keys to optional animations. -/
structure Player where
  collision : Rectangle
  animations : AnimationType → Option SpriteAnimation
  pos : Vector2
  current_animation : AnimationType
  is_moving : Bool
  speed : ℚ

namespace Player

/-- `Player::new(x, y, width, height, speed)`: empty animation map, position
`Vector2::zero()`, current animation `Idle(DOWN)`, not moving. -/
def new (x y width height : ℚ) (speed : ℚ) : Player :=
  { collision := ⟨x, y, width, height⟩
    animations := fun _ => none
    pos := Vector2.zero
    current_animation := AnimationType.Idle Direction.DOWN
    is_moving := false
    speed := speed }

/-- `Player::add_animation`: build a `SpriteAnimation` from the loaded
texture and insert it under `animation_type`.  (The texture returned by
`load_texture(file).unwrap()` is passed in directly.) -/
def add_animation (p : Player) (sprite : Texture2D)
    (animation_type : AnimationType) (num_frames : Nat) (speed : Nat) : Player :=
  { p with animations := fun k =>
      if k = animation_type then some (SpriteAnimation.new sprite num_frames speed)
      else p.animations k }

/-- `Player::change_animation(animation_type)`: plain assignment. -/
def change_animation (p : Player) (animation_type : AnimationType) : Player :=
  { p with current_animation := animation_type }

/-- `Player::animate()`: look up the current animation (`expect` panics when
the key is missing → `none`), advance it, store it back. -/
def animate (p : Player) : Option Player :=
  match p.animations p.current_animation with
  | none => none
  | some a =>
    match a.animate with
    | none => none
    | some a' =>
      some { p with animations := fun k =>
        if k = p.current_animation then some a' else p.animations k }

/-- `Player::draw(d)`: look up the current animation (`expect` panics when
the key is missing → `none`) and draw it at the player position. -/
def draw (p : Player) : Option (Rectangle × Rectangle × Vector2 × ℚ) :=
  match p.animations p.current_animation with
  | none => none
  | some a => some (a.draw p.pos)

/-- `Player::move_player(dir)`: offset the position by `speed` on the axis of
`dir`, then switch to the `Run(dir)` animation. -/
def move_player (p : Player) (dir : Direction) : Player :=
  let p' :=
    match dir with
    | Direction.UP => { p with pos := ⟨p.pos.x, p.pos.y - p.speed⟩ }
    | Direction.DOWN => { p with pos := ⟨p.pos.x, p.pos.y + p.speed⟩ }
    | Direction.RIGHT => { p with pos := ⟨p.pos.x + p.speed, p.pos.y⟩ }
    | Direction.LEFT => { p with pos := ⟨p.pos.x - p.speed, p.pos.y⟩ }
  p'.change_animation (AnimationType.Run dir)

end Player

/-- One frame's keyboard snapshot: for each of the four movement keys,
whether `is_key_down` and whether `is_key_released` reports true. -/
structure Keyboard where
  downA : Bool
  downD : Bool
  downS : Bool
  downW : Bool
  releasedA : Bool
  releasedD : Bool
  releasedS : Bool
  releasedW : Bool
  deriving DecidableEq, Repr

/-- The input-handling phase of one main-loop iteration: the four
`is_key_down` blocks (A, D, S, W) followed by the four `is_key_released`
blocks (A, D, S, W), in source order. -/
def handleInput (kb : Keyboard) (p : Player) : Player :=
  let p1 := if kb.downA then p.move_player Direction.LEFT else p
  let p2 := if kb.downD then p1.move_player Direction.RIGHT else p1
  let p3 := if kb.downS then p2.move_player Direction.DOWN else p2
  let p4 := if kb.downW then p3.move_player Direction.UP else p3
  let p5 := if kb.releasedA then p4.change_animation (AnimationType.Idle Direction.LEFT) else p4
  let p6 := if kb.releasedD then p5.change_animation (AnimationType.Idle Direction.RIGHT) else p5
  let p7 := if kb.releasedS then p6.change_animation (AnimationType.Idle Direction.DOWN) else p6
  if kb.releasedW then p7.change_animation (AnimationType.Idle Direction.UP) else p7

/-- One main-loop iteration's state change: input handling followed by
`player.animate()` (drawing does not change the player).  `none` is a
panic. -/
def mainStep (kb : Keyboard) (p : Player) : Option Player :=
  (handleInput kb p).animate

/-- Iterate the main loop over a list of keyboard snapshots. -/
def runSteps : List Keyboard → Player → Option Player
  | [], p => some p
  | kb :: kbs, p =>
    match mainStep kb p with
    | none => none
    | some p' => runSteps kbs p'

/-- The startup sequence of `main`, parameterised by the textures the eight
`load_texture` calls return: `Player::new(42.0, 58.0, 12.0, 28.0, 2.0)`
followed by the eight `add_animation` calls in source order, each with
8 frames and speed 20. -/
def startup (tex : AnimationType → Texture2D) : Player :=
  ((((((((Player.new 42 58 12 28 2).add_animation
    (tex (AnimationType.Idle Direction.DOWN)) (AnimationType.Idle Direction.DOWN) 8 20).add_animation
    (tex (AnimationType.Idle Direction.UP)) (AnimationType.Idle Direction.UP) 8 20).add_animation
    (tex (AnimationType.Idle Direction.RIGHT)) (AnimationType.Idle Direction.RIGHT) 8 20).add_animation
    (tex (AnimationType.Idle Direction.LEFT)) (AnimationType.Idle Direction.LEFT) 8 20).add_animation
    (tex (AnimationType.Run Direction.DOWN)) (AnimationType.Run Direction.DOWN) 8 20).add_animation
    (tex (AnimationType.Run Direction.UP)) (AnimationType.Run Direction.UP) 8 20).add_animation
    (tex (AnimationType.Run Direction.RIGHT)) (AnimationType.Run Direction.RIGHT) 8 20).add_animation
    (tex (AnimationType.Run Direction.LEFT)) (AnimationType.Run Direction.LEFT) 8 20

end Game

namespace Game

/-! ### Helper lemmas about `SpriteAnimation.animate` -/

theorem u32_large : (61 : Nat) ≤ U32 := by norm_num [U32]

/-- One `animate` call from a state whose counter is still small and whose
frame is in range: the counter wraps around `60 / anim_speed` and the frame
advances modulo `num_frames` exactly when the counter resets. -/
theorem animate_step (s : SpriteAnimation) (hsp : 1 ≤ s.anim_speed)
    (hc : s.frames_counter < 60) (hf : s.current_frame < s.num_frames)
    (hnf32 : s.num_frames < U32) :
    s.animate = some { s with
      frames_counter := if 60 / s.anim_speed ≤ s.frames_counter + 1 then 0
        else s.frames_counter + 1,
      current_frame := if 60 / s.anim_speed ≤ s.frames_counter + 1 then
        (s.current_frame + 1) % s.num_frames
      else s.current_frame } := by
  have hU := u32_large
  have hz : s.anim_speed ≠ 0 := by omega
  have hnf : 1 ≤ s.num_frames := by omega
  have hfc : (s.frames_counter + 1) % U32 = s.frames_counter + 1 :=
    Nat.mod_eq_of_lt (by omega)
  have hcf : (s.current_frame + 1) % U32 = s.current_frame + 1 :=
    Nat.mod_eq_of_lt (by omega)
  have hsub : (s.num_frames + U32 - 1) % U32 = s.num_frames - 1 := by
    have h1 : s.num_frames + U32 - 1 = (s.num_frames - 1) + U32 := by omega
    rw [h1, Nat.add_mod_right, Nat.mod_eq_of_lt (by omega)]
  simp only [SpriteAnimation.animate, if_neg hz, hfc, hcf, hsub, ge_iff_le,
    gt_iff_lt]
  rcases Nat.lt_or_ge (s.frames_counter + 1) (60 / s.anim_speed) with h1 | h1
  · rw [if_neg (by omega), if_neg (by omega), if_neg (by omega)]
  · rw [if_pos h1, if_pos h1, if_pos h1]
    rcases Nat.lt_or_ge (s.current_frame + 1) s.num_frames with h2 | h2
    · rw [if_neg (by omega), Nat.mod_eq_of_lt h2]
    · have h3 : s.current_frame + 1 = s.num_frames := by omega
      rw [if_pos (by omega), h3, Nat.mod_self]

/-- `animate_step`, restated with the state's fields spelled out. -/
theorem animate_step_fields (tex : Texture2D) (fw : ℚ) (nf cf c speed : Nat)
    (hsp : 1 ≤ speed) (hc : c < 60) (hf : cf < nf) (hnf32 : nf < U32) :
    SpriteAnimation.animate ⟨tex, fw, nf, cf, c, speed⟩ =
      some ⟨tex, fw, nf,
        if 60 / speed ≤ c + 1 then (cf + 1) % nf else cf,
        if 60 / speed ≤ c + 1 then 0 else c + 1,
        speed⟩ :=
  animate_step ⟨tex, fw, nf, cf, c, speed⟩ hsp hc hf hnf32

/-- Unfolding lemma: `animateN` peels the first call off the front. -/
theorem animateN_succ (n : Nat) (s : SpriteAnimation) :
    SpriteAnimation.animateN (n + 1) s =
      s.animate.bind (SpriteAnimation.animateN n) := by
  cases h : s.animate <;> simp [SpriteAnimation.animateN, h]

/-- `animateN` peels the last call off the end. -/
theorem animateN_succ_last (n : Nat) (s : SpriteAnimation) :
    SpriteAnimation.animateN (n + 1) s =
      (SpriteAnimation.animateN n s).bind SpriteAnimation.animate := by
  induction n generalizing s with
  | zero =>
    rw [animateN_succ]
    cases h : s.animate <;> simp [SpriteAnimation.animateN, h]
  | succ n ih =>
    rw [animateN_succ, animateN_succ]
    cases h : s.animate with
    | none => simp
    | some s' => simp [ih s']

/-- Closed form for `f` calls to `animate` starting from `new`:
with `p = 60 / speed`, the counter is `f % p` and the frame is
`(f / p) % num_frames`. -/
theorem animateN_new (tex : Texture2D) (nf speed f : Nat)
    (h1 : 1 ≤ speed) (h60 : speed ≤ 60) (hnf : 1 ≤ nf) (hnf32 : nf < U32) :
    SpriteAnimation.animateN f (SpriteAnimation.new tex nf speed) = some
      { texture := tex
        frame_width := (tex.width : ℚ) / (nf : ℚ)
        num_frames := nf
        current_frame := f / (60 / speed) % nf
        frames_counter := f % (60 / speed)
        anim_speed := speed } := by
  have hp : 1 ≤ 60 / speed := (Nat.one_le_div_iff (by omega)).2 h60
  have hp60 : 60 / speed ≤ 60 := Nat.div_le_self 60 speed
  induction f with
  | zero =>
    simp only [SpriteAnimation.animateN, Nat.zero_div, Nat.zero_mod,
      SpriteAnimation.new]
  | succ f ih =>
    have hmlt : f % (60 / speed) < 60 / speed := Nat.mod_lt f (by omega)
    rw [animateN_succ_last, ih]
    show SpriteAnimation.animate _ = _
    rw [animate_step_fields tex ((tex.width : ℚ) / (nf : ℚ)) nf
      (f / (60 / speed) % nf) (f % (60 / speed)) speed (by omega) (by omega)
      (Nat.mod_lt _ (by omega)) hnf32]
    have hdm := Nat.div_add_mod f (60 / speed)
    rcases Nat.lt_or_ge (f % (60 / speed) + 1) (60 / speed) with h2 | h2
    · have hrep : f + 1 = 60 / speed * (f / (60 / speed)) + (f % (60 / speed) + 1) := by
        omega
      have hdiv : (f + 1) / (60 / speed) = f / (60 / speed) := by
        rw [hrep, Nat.mul_add_div (by omega), Nat.div_eq_of_lt h2, Nat.add_zero]
      have hmod : (f + 1) % (60 / speed) = f % (60 / speed) + 1 := by
        rw [hrep, Nat.mul_add_mod, Nat.mod_eq_of_lt h2]
      rw [if_neg (by omega), if_neg (by omega), hdiv, hmod]
    · have hrep : f + 1 = 60 / speed * (f / (60 / speed) + 1) := by
        rw [Nat.mul_succ]
        omega
      have hdiv : (f + 1) / (60 / speed) = f / (60 / speed) + 1 := by
        rw [hrep, Nat.mul_div_cancel_left _ (by omega)]
      have hmod : (f + 1) % (60 / speed) = 0 := by
        rw [hrep, Nat.mul_mod_right]
      rw [if_pos (by omega), if_pos (by omega), hdiv, hmod,
        Nat.mod_add_mod]

/-! ### Claim theorems for `SpriteAnimation` -/

/-- C1: from `new` with `num_frames ≥ 1` and `1 ≤ anim_speed ≤ 60`, every
`animate()` call increments the tick counter, resetting it to 0 and advancing
the frame by 1 modulo `num_frames` when it reaches `60 / anim_speed`; after
`f` calls `current_frame = (f / (60 / anim_speed)) % num_frames`. -/
theorem animateN_frame_formula (tex : Texture2D) (nf speed f : Nat)
    (h1 : 1 ≤ speed) (h60 : speed ≤ 60) (hnf : 1 ≤ nf) (hnf32 : nf < U32) :
    ∃ s : SpriteAnimation,
      SpriteAnimation.animateN f (SpriteAnimation.new tex nf speed) = some s ∧
      s.current_frame = f / (60 / speed) % nf ∧
      s.frames_counter = f % (60 / speed) ∧
      s.animate = some { s with
        frames_counter := if 60 / speed ≤ s.frames_counter + 1 then 0
          else s.frames_counter + 1,
        current_frame := if 60 / speed ≤ s.frames_counter + 1 then
          (s.current_frame + 1) % nf
        else s.current_frame } := by
  have hp : 1 ≤ 60 / speed := (Nat.one_le_div_iff (by omega)).2 h60
  have hp60 : 60 / speed ≤ 60 := Nat.div_le_self 60 speed
  have hmlt : f % (60 / speed) < 60 / speed := Nat.mod_lt f (by omega)
  refine ⟨_, animateN_new tex nf speed f h1 h60 hnf hnf32, rfl, rfl, ?_⟩
  exact animate_step_fields tex _ nf _ _ speed h1 (by omega)
    (Nat.mod_lt _ (by omega)) hnf32

/-- Witness for C1 at `num_frames = 8`, `anim_speed = 20`, `f = 7` calls. -/
theorem animateN_frame_formula_witness :
    ∃ s : SpriteAnimation,
      SpriteAnimation.animateN 7 (SpriteAnimation.new ⟨64, 64⟩ 8 20) = some s ∧
      s.current_frame = 7 / (60 / 20) % 8 ∧
      s.frames_counter = 7 % (60 / 20) ∧
      s.animate = some { s with
        frames_counter := if 60 / 20 ≤ s.frames_counter + 1 then 0
          else s.frames_counter + 1,
        current_frame := if 60 / 20 ≤ s.frames_counter + 1 then
          (s.current_frame + 1) % 8
        else s.current_frame } :=
  animateN_frame_formula ⟨64, 64⟩ 8 20 7 (by decide) (by decide) (by decide)
    (by decide)

/-- C3: `0 ≤ current_frame < num_frames` holds after `new` and is preserved
by every successful `animate()` call. -/
theorem current_frame_in_range :
    (∀ (tex : Texture2D) (nf speed : Nat), 1 ≤ nf →
      (SpriteAnimation.new tex nf speed).current_frame < nf) ∧
    (∀ s s' : SpriteAnimation, 1 ≤ s.num_frames → s.num_frames < U32 →
      s.current_frame < s.num_frames → s.animate = some s' →
      s'.current_frame < s'.num_frames) := by
  constructor
  · intro tex nf speed h
    simpa [SpriteAnimation.new] using h
  · intro s s' h1 h32 hf ha
    have hcf : (s.current_frame + 1) % U32 = s.current_frame + 1 :=
      Nat.mod_eq_of_lt (by omega)
    have hsub : (s.num_frames + U32 - 1) % U32 = s.num_frames - 1 := by
      have hx : s.num_frames + U32 - 1 = (s.num_frames - 1) + U32 := by omega
      rw [hx, Nat.add_mod_right, Nat.mod_eq_of_lt (by omega)]
    by_cases hz : s.anim_speed = 0
    · simp [SpriteAnimation.animate, hz] at ha
    · simp only [SpriteAnimation.animate, hz, if_false, hcf, hsub, ge_iff_le,
        gt_iff_lt] at ha
      split_ifs at ha <;> cases ha <;> simp <;> omega

/-- Witness for C3 at a concrete animation. -/
theorem current_frame_in_range_witness :
    (SpriteAnimation.new ⟨64, 64⟩ 8 20).current_frame < 8 ∧
    (SpriteAnimation.mk ⟨64, 64⟩ 8 8 7 2 20).animate =
      some (SpriteAnimation.mk ⟨64, 64⟩ 8 8 0 0 20) ∧
    (SpriteAnimation.mk ⟨64, 64⟩ 8 8 0 0 20).current_frame <
      (SpriteAnimation.mk ⟨64, 64⟩ 8 8 0 0 20).num_frames :=
  ⟨current_frame_in_range.1 ⟨64, 64⟩ 8 20 (by decide), by decide,
    current_frame_in_range.2 (SpriteAnimation.mk ⟨64, 64⟩ 8 8 7 2 20) _
      (by decide) (by decide) (by decide) (by decide)⟩

/-- C10: `60 / anim_speed` is an integer division: `anim_speed = 0` makes
`animate()` panic (divide by zero); `anim_speed > 60` makes the quotient 0,
so every single call resets the counter and advances the frame. -/
theorem animate_speed_edge_cases :
    (∀ s : SpriteAnimation, s.anim_speed = 0 → s.animate = none) ∧
    (∀ s : SpriteAnimation, 1 ≤ s.anim_speed → s.animate.isSome = true) ∧
    (∀ s : SpriteAnimation, 60 < s.anim_speed → 60 / s.anim_speed = 0) ∧
    (∀ s s' : SpriteAnimation, 60 < s.anim_speed →
      s.current_frame < s.num_frames → s.num_frames < U32 →
      s.animate = some s' →
      s'.current_frame = (s.current_frame + 1) % s.num_frames ∧
      s'.frames_counter = 0) := by
  refine ⟨?_, ?_, ?_, ?_⟩
  · intro s h
    simp [SpriteAnimation.animate, h]
  · intro s h
    have hz : s.anim_speed ≠ 0 := by omega
    simp only [SpriteAnimation.animate, hz, if_false]
    split_ifs <;> simp
  · intro s h
    exact Nat.div_eq_of_lt h
  · intro s s' h60 hf h32 ha
    have h1 : 1 ≤ s.num_frames := by omega
    have hcf : (s.current_frame + 1) % U32 = s.current_frame + 1 :=
      Nat.mod_eq_of_lt (by omega)
    have hsub : (s.num_frames + U32 - 1) % U32 = s.num_frames - 1 := by
      have hx : s.num_frames + U32 - 1 = (s.num_frames - 1) + U32 := by omega
      rw [hx, Nat.add_mod_right, Nat.mod_eq_of_lt (by omega)]
    have hz : s.anim_speed ≠ 0 := by omega
    have hq : 60 / s.anim_speed = 0 := Nat.div_eq_of_lt h60
    simp only [SpriteAnimation.animate, hz, if_false, hcf, hsub, hq,
      Nat.zero_le, ge_iff_le, gt_iff_lt, if_pos] at ha
    split_ifs at ha with hb <;> cases ha
    · have hx : s.current_frame + 1 = s.num_frames := by omega
      simp [hx, Nat.mod_self]
    · simp [Nat.mod_eq_of_lt (by omega : s.current_frame + 1 < s.num_frames)]

/-- Witness for C10 at anim_speed 0 and anim_speed 61. -/
theorem animate_speed_edge_cases_witness :
    (SpriteAnimation.mk ⟨64, 64⟩ 8 8 0 0 0).animate = none ∧
    (SpriteAnimation.mk ⟨64, 64⟩ 8 8 3 0 61).animate.isSome = true ∧
    60 / (SpriteAnimation.mk ⟨64, 64⟩ 8 8 3 0 61).anim_speed = 0 ∧
    (SpriteAnimation.mk ⟨64, 64⟩ 8 8 3 5 61).animate =
      some (SpriteAnimation.mk ⟨64, 64⟩ 8 8 4 0 61) ∧
    (SpriteAnimation.mk ⟨64, 64⟩ 8 8 4 0 61).current_frame = (3 + 1) % 8 :=
  ⟨animate_speed_edge_cases.1 _ rfl,
   animate_speed_edge_cases.2.1 _ (by decide),
   animate_speed_edge_cases.2.2.1 _ (by decide),
   by decide,
   (animate_speed_edge_cases.2.2.2 (SpriteAnimation.mk ⟨64, 64⟩ 8 8 3 5 61) _
     (by decide) (by decide) (by decide) (by decide)).1⟩

set_option maxRecDepth 8192 in
/-- C7 counterexample: from `new` with `num_frames = 8`, `anim_speed = 20`,
after exactly 180 `animate()` calls the frame index is 4, not 0 — the
animation has not completed a whole number of cycles, so it cannot have
wrapped exactly 3 times and returned to frame 0. -/
theorem animateN_180_frame_ne_zero :
    (SpriteAnimation.animateN 180 (SpriteAnimation.new ⟨64, 64⟩ 8 20)).map
      SpriteAnimation.current_frame = some 4 ∧ (4 : Nat) ≠ 0 := by
  exact ⟨rfl, by decide⟩

set_option maxRecDepth 8192 in
/-- C7 (amended): 180 `animate()` calls from `new` with `num_frames = 8`,
`anim_speed = 20` produce exactly `180 / 3 = 60` frame advances, i.e. 7 full
cycles plus 4 frames: the final state has `current_frame = 4` and
`frames_counter = 0`. -/
theorem animateN_180_spec :
    SpriteAnimation.animateN 180 (SpriteAnimation.new ⟨64, 64⟩ 8 20) =
      some { SpriteAnimation.new ⟨64, 64⟩ 8 20 with
        current_frame := 4, frames_counter := 0 } ∧
    180 / (60 / 20) = 60 ∧ 60 / 8 = 7 ∧ 60 % 8 = 4 := by
  exact ⟨rfl, by decide, by decide, by decide⟩

/-- C6: `draw` reads the source sub-rectangle
`(current_frame * frame_width, 0, frame_width, texture.height)`, and when
`frame_width = texture.width / num_frames` and the frame index is in range
the sub-rectangle stays inside the texture. -/
theorem draw_source_in_bounds (s : SpriteAnimation) (pos : Vector2)
    (hfw : s.frame_width = (s.texture.width : ℚ) / (s.num_frames : ℚ))
    (hw : 0 ≤ s.texture.width) (hf : s.current_frame < s.num_frames) :
    (s.draw pos).1 = ⟨(s.current_frame : ℚ) * s.frame_width, 0, s.frame_width,
      (s.texture.height : ℚ)⟩ ∧
    (s.current_frame : ℚ) * s.frame_width + s.frame_width ≤
      (s.texture.width : ℚ) := by
  refine ⟨rfl, ?_⟩
  have hnn : 0 < s.num_frames := Nat.lt_of_le_of_lt (Nat.zero_le _) hf
  have hn : (0 : ℚ) < (s.num_frames : ℚ) := by exact_mod_cast hnn
  have hw0 : (0 : ℚ) ≤ (s.texture.width : ℚ) := by exact_mod_cast hw
  have hi : (s.current_frame : ℚ) + 1 ≤ (s.num_frames : ℚ) := by
    have hx := Nat.succ_le_of_lt hf
    exact_mod_cast hx
  rw [hfw]
  calc (s.current_frame : ℚ) * ((s.texture.width : ℚ) / (s.num_frames : ℚ)) +
        (s.texture.width : ℚ) / (s.num_frames : ℚ)
      = ((s.current_frame : ℚ) + 1) *
          ((s.texture.width : ℚ) / (s.num_frames : ℚ)) := by ring
    _ ≤ (s.num_frames : ℚ) * ((s.texture.width : ℚ) / (s.num_frames : ℚ)) :=
        mul_le_mul_of_nonneg_right hi (div_nonneg hw0 hn.le)
    _ = (s.texture.width : ℚ) := by
        rw [mul_comm, div_mul_cancel₀ _ hn.ne']

/-- Witness for C6 at a concrete animation: texture 64×64, 8 frames of
width 8, frame index 3. -/
theorem draw_source_in_bounds_witness :
    (SpriteAnimation.draw (SpriteAnimation.mk ⟨64, 64⟩ 8 8 3 0 20) ⟨0, 0⟩).1 =
      ⟨((3 : Nat) : ℚ) * 8, 0, 8, ((64 : Int) : ℚ)⟩ ∧
    ((3 : Nat) : ℚ) * 8 + 8 ≤ ((64 : Int) : ℚ) :=
  draw_source_in_bounds (SpriteAnimation.mk ⟨64, 64⟩ 8 8 3 0 20) ⟨0, 0⟩
    (by norm_num) (by norm_num) (by norm_num)

/-! ### Claim theorems for `Player` -/

/-- C2: one `move_player(d)` call offsets the position by exactly `±speed`
on the axis of `d`, leaves the other coordinate unchanged, and switches the
current animation to `Run(d)`. -/
theorem move_player_once (p : Player) (d : Direction) :
    (p.move_player d).current_animation = AnimationType.Run d ∧
    (p.move_player d).pos.x = (match d with
      | Direction.UP => p.pos.x
      | Direction.DOWN => p.pos.x
      | Direction.RIGHT => p.pos.x + p.speed
      | Direction.LEFT => p.pos.x - p.speed) ∧
    (p.move_player d).pos.y = (match d with
      | Direction.UP => p.pos.y - p.speed
      | Direction.DOWN => p.pos.y + p.speed
      | Direction.RIGHT => p.pos.y
      | Direction.LEFT => p.pos.y) := by
  cases d <;> exact ⟨rfl, rfl, rfl⟩

/-- C9: `Player::new(x, y, width, height, speed)` uses `x, y, width, height`
only for the collision rectangle; the position is `(0, 0)`, the current
animation `Idle(DOWN)`, the animation map empty, `is_moving` false. -/
theorem player_new_fields (x y w h sp : ℚ) :
    (Player.new x y w h sp).collision = ⟨x, y, w, h⟩ ∧
    (Player.new x y w h sp).pos = ⟨0, 0⟩ ∧
    (Player.new x y w h sp).current_animation =
      AnimationType.Idle Direction.DOWN ∧
    (Player.new x y w h sp).animations = (fun _ => none) ∧
    (Player.new x y w h sp).is_moving = false ∧
    (Player.new x y w h sp).speed = sp :=
  ⟨rfl, rfl, rfl, rfl, rfl, rfl⟩

/-! ### Error handling: missing keys and panics (C4) -/

/-- A nonzero speed divisor means `animate` cannot panic. -/
theorem animate_isSome_of_speed_pos (s : SpriteAnimation)
    (h : 1 ≤ s.anim_speed) : s.animate.isSome = true := by
  have hz : s.anim_speed ≠ 0 := by omega
  simp only [SpriteAnimation.animate, hz, if_false]
  split_ifs <;> simp

/-- `animate` never changes the speed divisor. -/
theorem animate_anim_speed_eq (s s' : SpriteAnimation)
    (h : s.animate = some s') : s'.anim_speed = s.anim_speed := by
  by_cases hz : s.anim_speed = 0
  · simp [SpriteAnimation.animate, hz] at h
  · simp only [SpriteAnimation.animate, hz, if_false] at h
    split_ifs at h <;> cases h <;> rfl

/-- C4 counterexample: a player whose current key (`Idle(DOWN)`) IS present
in the map, yet `animate()` still panics, because the stored animation has
`anim_speed = 0` and `60 / anim_speed` divides by zero; so "when the key is
present, neither call raises an error" fails. -/
theorem animate_panics_with_key_present :
    (((Player.new 42 58 12 28 2).add_animation ⟨64, 64⟩
        (AnimationType.Idle Direction.DOWN) 8 0).animations
      ((Player.new 42 58 12 28 2).add_animation ⟨64, 64⟩
        (AnimationType.Idle Direction.DOWN) 8 0).current_animation).isSome
        = true ∧
    ((Player.new 42 58 12 28 2).add_animation ⟨64, 64⟩
        (AnimationType.Idle Direction.DOWN) 8 0).animate = none :=
  ⟨rfl, rfl⟩

/-- C4 (amended): when the current key is absent from the map both
`animate()` and `draw()` panic (they never silently no-op); when it is
present `draw()` never panics, and `animate()` panics only if the looked-up
animation has `anim_speed = 0`. -/
theorem missing_key_is_fatal (p : Player) :
    (p.animations p.current_animation = none →
      p.animate = none ∧ p.draw = none) ∧
    (∀ a : SpriteAnimation, p.animations p.current_animation = some a →
      p.draw.isSome = true ∧
      (1 ≤ a.anim_speed → p.animate.isSome = true)) := by
  constructor
  · intro h
    exact ⟨by simp [Player.animate, h], by simp [Player.draw, h]⟩
  · intro a h
    refine ⟨by simp [Player.draw, h], fun hsp => ?_⟩
    obtain ⟨a', ha'⟩ :=
      Option.isSome_iff_exists.mp (animate_isSome_of_speed_pos a hsp)
    simp [Player.animate, h, ha']

/-- Witness for C4 (amended): a fresh player with an empty map panics on
both calls; after adding the `Idle(DOWN)` animation with speed 20, both
calls succeed. -/
theorem missing_key_is_fatal_witness :
    ((Player.new 42 58 12 28 2).animate = none ∧
      (Player.new 42 58 12 28 2).draw = none) ∧
    (((Player.new 42 58 12 28 2).add_animation ⟨64, 64⟩
        (AnimationType.Idle Direction.DOWN) 8 20).draw.isSome = true ∧
      ((Player.new 42 58 12 28 2).add_animation ⟨64, 64⟩
        (AnimationType.Idle Direction.DOWN) 8 20).animate.isSome = true) :=
  ⟨(missing_key_is_fatal (Player.new 42 58 12 28 2)).1 rfl,
   ((missing_key_is_fatal ((Player.new 42 58 12 28 2).add_animation ⟨64, 64⟩
       (AnimationType.Idle Direction.DOWN) 8 20)).2
     (SpriteAnimation.new ⟨64, 64⟩ 8 20) rfl).1,
   ((missing_key_is_fatal ((Player.new 42 58 12 28 2).add_animation ⟨64, 64⟩
       (AnimationType.Idle Direction.DOWN) 8 20)).2
     (SpriteAnimation.new ⟨64, 64⟩ 8 20) rfl).2 (by decide)⟩

/-! ### Input handling (C8) -/

/-- The `is_key_released` flag of the key bound to direction `d`
(A→LEFT, D→RIGHT, S→DOWN, W→UP). -/
def keyReleased (kb : Keyboard) : Direction → Bool
  | Direction.LEFT => kb.releasedA
  | Direction.RIGHT => kb.releasedD
  | Direction.DOWN => kb.releasedS
  | Direction.UP => kb.releasedW

/-- Whether the released flag of some direction key processed after `d`'s
key (source order A, D, S, W) is set. -/
def laterKeyReleased (kb : Keyboard) : Direction → Bool
  | Direction.LEFT => kb.releasedD || (kb.releasedS || kb.releasedW)
  | Direction.RIGHT => kb.releasedS || kb.releasedW
  | Direction.DOWN => kb.releasedW
  | Direction.UP => false

/-- C8 counterexample: in a snapshot where both A (LEFT) and W (UP) are in
the released state, the input phase ends with `Idle(UP)`, not `Idle(LEFT)`,
although LEFT's key is released: the outcome for direction LEFT is not
independent of the other keys' state. -/
theorem release_not_independent :
    keyReleased ⟨false, false, false, false, true, false, false, true⟩
      Direction.LEFT = true ∧
    (handleInput ⟨false, false, false, false, true, false, false, true⟩
      (Player.new 42 58 12 28 2)).current_animation =
      AnimationType.Idle Direction.UP ∧
    AnimationType.Idle Direction.UP ≠ AnimationType.Idle Direction.LEFT :=
  ⟨rfl, rfl, by decide⟩

/-- C8 (amended): if the key for `d` is in the released state and no
direction key processed after it (in the fixed order A, D, S, W) is
released, the input phase ends with `Idle(d)`, independent of the down
state of all four keys and of earlier released keys. -/
theorem release_sets_idle (kb : Keyboard) (p : Player) (d : Direction)
    (h1 : keyReleased kb d = true) (h2 : laterKeyReleased kb d = false) :
    (handleInput kb p).current_animation = AnimationType.Idle d := by
  cases d with
  | UP =>
    simp only [keyReleased] at h1
    simp [handleInput, h1, Player.change_animation]
  | DOWN =>
    simp only [keyReleased] at h1
    simp only [laterKeyReleased] at h2
    simp [handleInput, h1, h2, Player.change_animation]
  | RIGHT =>
    simp only [keyReleased] at h1
    simp only [laterKeyReleased, Bool.or_eq_false_iff] at h2
    obtain ⟨hS, hW⟩ := h2
    simp [handleInput, h1, hS, hW, Player.change_animation]
  | LEFT =>
    simp only [keyReleased] at h1
    simp only [laterKeyReleased, Bool.or_eq_false_iff] at h2
    obtain ⟨hD, hS, hW⟩ := h2
    simp [handleInput, h1, hD, hS, hW, Player.change_animation]

/-- Witness for C8 (amended): only A released, direction LEFT. -/
theorem release_sets_idle_witness :
    keyReleased ⟨false, false, false, false, true, false, false, false⟩
      Direction.LEFT = true ∧
    laterKeyReleased ⟨false, false, false, false, true, false, false, false⟩
      Direction.LEFT = false ∧
    (handleInput ⟨false, false, false, false, true, false, false, false⟩
      (Player.new 42 58 12 28 2)).current_animation =
      AnimationType.Idle Direction.LEFT :=
  ⟨rfl, rfl, release_sets_idle _ (Player.new 42 58 12 28 2) Direction.LEFT
    rfl rfl⟩

/-! ### Reachability: the missing-key branch is unreachable (C5) -/

/-- Every animation key is present in the map, with a nonzero speed
divisor. -/
def FullMap (p : Player) : Prop :=
  ∀ k : AnimationType, ∃ a : SpriteAnimation,
    p.animations k = some a ∧ 1 ≤ a.anim_speed

theorem move_player_animations (p : Player) (d : Direction) :
    (p.move_player d).animations = p.animations := by
  cases d <;> rfl

theorem change_animation_animations (p : Player) (k : AnimationType) :
    (p.change_animation k).animations = p.animations := rfl

/-- Input handling never touches the animation map. -/
theorem handleInput_animations (kb : Keyboard) (p : Player) :
    (handleInput kb p).animations = p.animations := by
  have hmv : ∀ (q : Player) (b : Bool) (d : Direction),
      (if b then q.move_player d else q).animations = q.animations := by
    intro q b d
    cases b <;> simp [move_player_animations]
  have hch : ∀ (q : Player) (b : Bool) (k : AnimationType),
      (if b then q.change_animation k else q).animations = q.animations := by
    intro q b k
    cases b <;> simp [change_animation_animations]
  simp only [handleInput, hmv, hch]

theorem fullMap_handleInput (kb : Keyboard) (p : Player) (h : FullMap p) :
    FullMap (handleInput kb p) := by
  intro k
  rw [handleInput_animations]
  exact h k

/-- From a full map, `Player::animate` succeeds and keeps the map full. -/
theorem fullMap_animate (p : Player) (h : FullMap p) :
    ∃ p', p.animate = some p' ∧ FullMap p' := by
  obtain ⟨a, ha, hsp⟩ := h p.current_animation
  obtain ⟨a', ha'⟩ :=
    Option.isSome_iff_exists.mp (animate_isSome_of_speed_pos a hsp)
  refine ⟨{ p with animations := fun k =>
      if k = p.current_animation then some a' else p.animations k }, ?_, ?_⟩
  · simp only [Player.animate, ha, ha']
  intro k
  by_cases hk : k = p.current_animation
  · subst hk
    refine ⟨a', by simp, ?_⟩
    rw [animate_anim_speed_eq a a' ha']
    exact hsp
  · obtain ⟨b, hb, hbs⟩ := h k
    exact ⟨b, by simp [hk, hb], hbs⟩

/-- Iterating the main loop from a full map always succeeds and keeps the
map full. -/
theorem fullMap_runSteps (kbs : List Keyboard) (p : Player) (h : FullMap p) :
    ∃ p', runSteps kbs p = some p' ∧ FullMap p' := by
  induction kbs generalizing p with
  | nil => exact ⟨p, rfl, h⟩
  | cons kb kbs ih =>
    obtain ⟨p', hp', hfull⟩ :=
      fullMap_animate (handleInput kb p) (fullMap_handleInput kb p h)
    obtain ⟨p'', hp'', hfull''⟩ := ih p' hfull
    refine ⟨p'', ?_, hfull''⟩
    simp only [runSteps, mainStep, hp', hp'']

/-- The startup sequence installs all eight animations (speed 20 each). -/
theorem fullMap_startup (tex : AnimationType → Texture2D) :
    FullMap (startup tex) := by
  intro k
  rcases k with d | d <;> cases d <;>
    exact ⟨_, rfl, by norm_num [SpriteAnimation.new]⟩

/-- C5: after the startup sequence inserts the 8 animations, every state
reachable by iterating the main-loop step over any sequence of keyboard
snapshots has its active key present in the map, so the missing-key panic
branch in `animate()` and `draw()` is unreachable: every iteration
succeeds, and in the reached state both calls succeed. -/
theorem reachable_key_present (tex : AnimationType → Texture2D)
    (kbs : List Keyboard) :
    ∃ p : Player, runSteps kbs (startup tex) = some p ∧
      (p.animations p.current_animation).isSome = true ∧
      p.draw.isSome = true ∧ p.animate.isSome = true := by
  obtain ⟨p, hp, hfull⟩ := fullMap_runSteps kbs (startup tex) (fullMap_startup tex)
  obtain ⟨a, ha, hsp⟩ := hfull p.current_animation
  obtain ⟨p', hp'⟩ := fullMap_animate p hfull
  refine ⟨p, hp, by simp [ha], by simp [Player.draw, ha], by simp [hp'.1]⟩

end Game
